import Mathlib

/-!
Verification development for the game-recommendation pipeline
(`vector_store.py` and `recommendation_engine.py`): a shallow embedding of
the query-cleanup step, the vector-store operations (collection creation,
batch ingestion, similarity search) and the recommendation state machine,
together with theorems settling the specified properties.
-/

namespace GRE

/-! ### Enhancer output cleanup (`recommendation_engine.py`, `enhance_query`)

The source cleans the raw LLM output with
`re.sub(r"^(?:['\"]?\s*\*?\*?Search\s+query\*?\*?['\"]?\s*:)\s*", "", content, 0, re.MULTILINE)`
and then strips one leading and one trailing double quote.  The pattern is
hand-compiled below.  All alternatives of each optional piece start with
characters from pairwise disjoint classes (quote, whitespace, asterisk,
letter, colon), so the greedy left-to-right matcher implemented here is
equivalent to the backtracking semantics of the Python engine.  `\s` is
modelled by the six ASCII whitespace characters Python matches on ASCII
input. -/

/-- Whitespace class of Python's `\s` restricted to ASCII. -/
def isPyWs (c : Char) : Bool :=
  c == ' ' || c == '\t' || c == '\n' || c == '\r' || c == '\x0b' || c == '\x0c'

/-- Consume one optional quote character (the pattern piece `['\"]?`). -/
def dropOneQuote : List Char → List Char
  | c :: rest => if c == '"' || c == '\'' then rest else c :: rest
  | [] => []

/-- Consume one optional asterisk (the pattern piece `\*?`). -/
def dropOneStar : List Char → List Char
  | [] => []
  | c :: rest => if c == '*' then rest else c :: rest

/-- Strip a literal character sequence, failing when the input differs. -/
def stripLit : List Char → List Char → Option (List Char)
  | [], cs => some cs
  | p :: ps, c :: cs => if c == p then stripLit ps cs else none
  | _ :: _, [] => none

/-- Try the label pattern
`['\"]?\s*\*?\*?Search\s+query\*?\*?['\"]?\s*:` followed by the trailing
`\s*`, at the head of `cs`.  On success returns the rest of the input and
whether the last consumed character was a newline (so that the position
after the match is again a `^`-anchor under `re.MULTILINE`). -/
def matchLabel (cs : List Char) : Option (List Char × Bool) :=
  let cs3 := dropOneStar (dropOneStar ((dropOneQuote cs).dropWhile isPyWs))
  match stripLit "Search".toList cs3 with
  | none => none
  | some cs4 =>
    match cs4 with
    | [] => none
    | c :: _ =>
      if isPyWs c then
        match stripLit "query".toList (cs4.dropWhile isPyWs) with
        | none => none
        | some cs6 =>
          match (dropOneQuote (dropOneStar (dropOneStar cs6))).dropWhile isPyWs with
          | ':' :: cs10 =>
            some (cs10.dropWhile isPyWs, (cs10.takeWhile isPyWs).getLast? == some '\n')
          | _ => none
      else none

/-- One pass of `re.sub(pattern, "", content, 0, re.MULTILINE)`: every match
anchored at the start of the string or right after a newline is deleted.
`fuel` bounds the recursion (each step consumes at least one character, so
`fuel = cs.length` suffices); `atStart` records whether the current
position is a `^`-anchor. -/
def subAllF : Nat → List Char → Bool → List Char
  | 0, cs, _ => cs
  | _ + 1, [], _ => []
  | f + 1, c :: rest, atStart =>
    if atStart then
      match matchLabel (c :: rest) with
      | some (r, nl) => subAllF f r nl
      | none => c :: subAllF f rest (c == '\n')
    else
      c :: subAllF f rest (c == '\n')

/-- Python `cleaned_msg[1:]` guarded by `startswith('"')`. -/
def stripLeadQuote : List Char → List Char
  | [] => []
  | c :: r => if c == '"' then r else c :: r

/-- Python `cleaned_msg[:-1]` guarded by `endswith('"')`. -/
def stripTrailQuote (cs : List Char) : List Char :=
  if cs.getLast? == some '"' then cs.dropLast else cs

/-- The deterministic cleanup applied to the raw enhancer output inside
`enhance_query`: the multiline label substitution followed by stripping one
leading and one trailing double quote. -/
def cleanEnhancedQuery (content : String) : String :=
  String.mk (stripTrailQuote (stripLeadQuote
    (subAllF content.toList.length content.toList true)))

/-! ### Vector store (`vector_store.py`, `GameVectorStore`)

Game records are the rows handed to `add_games_to_collection`; similarity
scores and vector components are modelled by rational numbers.  The
embedding model's `encode` and the failures the per-record `try/except`
can catch are modelled by an explicit fallible `encode` parameter; the
similarity metric Qdrant evaluates internally (cosine) is an abstract
`sim` parameter. -/

/-- A catalog row as consumed by the ingestion and search paths. -/
structure GameRow where
  app_id : String
  app_name : String
  app_category : String
  app_description : String
  rating : Option ℚ
  screenshot_captions : List String
  app_icon : Option String
  app_page_link : Option String
deriving DecidableEq, Repr

/-- The payload stored with each indexed point (`add_games_to_collection`,
the `payload` dictionary). -/
structure GamePayload where
  app_id : String
  app_name : String
  app_category : String
  app_description : String
  rating : Option ℚ
  screenshot_captions : List String
  app_icon : Option String
  app_page_link : Option String
deriving DecidableEq, Repr

/-- A point of the Qdrant collection (`PointStruct`): id, vector, payload.
The payload is optional because Qdrant may return hits without one, which
`search_games` skips. -/
structure GamePoint where
  id : String
  vector : List ℚ
  payload : Option GamePayload
deriving DecidableEq, Repr

/-- Python's `s[:n]` slice: the first `n` characters of `s`. -/
def strTake (s : String) (n : Nat) : String :=
  String.mk (s.toList.take n)

/-- Python's `" ".join`. -/
def joinSpace : List String → String
  | [] => ""
  | [a] => a
  | a :: b :: t => a ++ " " ++ joinSpace (b :: t)

/-- The text embedded for a game (`generate_game_embedding`): the truthy
fields `Title:`, `Category:`, `Description:` in order, then the screenshot
captions pre-joined into one field, all joined by single spaces. -/
def gameEmbeddingText (g : GameRow) : String :=
  joinSpace
    ((if g.app_name ≠ "" then ["Title: " ++ g.app_name] else []) ++
     (if g.app_category ≠ "" then ["Category: " ++ g.app_category] else []) ++
     (if g.app_description ≠ "" then ["Description: " ++ g.app_description] else []) ++
     (if g.screenshot_captions ≠ [] then
        [joinSpace (g.screenshot_captions.map (fun c => "Screenshot shows: " ++ c))]
      else []))

/-- The embedding text as the spec words it: the present fields in the
fixed order title, category, description, then one entry per screenshot
caption prefixed "Screenshot shows:", concatenated.  Stated separately
from `gameEmbeddingText` so the two can be compared. -/
def specEmbeddingText (g : GameRow) : String :=
  joinSpace
    ((if g.app_name ≠ "" then ["Title: " ++ g.app_name] else []) ++
     (if g.app_category ≠ "" then ["Category: " ++ g.app_category] else []) ++
     (if g.app_description ≠ "" then ["Description: " ++ g.app_description] else []) ++
     g.screenshot_captions.map (fun c => "Screenshot shows: " ++ c))

/-- The payload built for a record (`add_games_to_collection` lines
146-157); the description is truncated to its first 1000 characters. -/
def buildPayload (g : GameRow) : GamePayload :=
  { app_id := g.app_id
    app_name := g.app_name
    app_category := g.app_category
    app_description := strTake g.app_description 1000
    rating := g.rating
    screenshot_captions := g.screenshot_captions
    app_icon := g.app_icon
    app_page_link := g.app_page_link }

/-- The per-record loop of `add_games_to_collection`: each record is
embedded and turned into a point inside a `try/except`; on failure an
error line naming the game and the reason is printed and the loop
continues with the next record.  Returns the points built and the printed
error lines, both in record order. -/
def buildPoints (encode : String → Except String (List ℚ)) :
    List GameRow → List GamePoint × List String
  | [] => ([], [])
  | g :: gs =>
    let rest := buildPoints encode gs
    match encode (gameEmbeddingText g) with
    | .ok v => (⟨g.app_id, v, some (buildPayload g)⟩ :: rest.1, rest.2)
    | .error e =>
      (rest.1, ("Error processing game " ++ g.app_name ++ ": " ++ e) :: rest.2)

/-- Upsert of a single point into the collection, keyed on the point id:
replace every point with the same id, or append when the id is new. -/
def upsertPoint (store : List GamePoint) (p : GamePoint) : List GamePoint :=
  if store.any (fun q => q.id == p.id) then
    store.map (fun q => if q.id == p.id then p else q)
  else store ++ [p]

/-- `count_games`: the number of points of the collection. -/
def countGames (store : List GamePoint) : Nat := store.length

/-- `add_games_to_collection`, successful-upsert path: build the points of
the batch and upsert them into the collection in one call. -/
def addGamesToCollection (encode : String → Except String (List ℚ))
    (store : List GamePoint) (games : List GameRow) : List GamePoint :=
  ((buildPoints encode games).1).foldl upsertPoint store

/-- `add_games_to_collection` with the batch `client.upsert` call made
explicit: the per-record loop runs first; when it produced points, the
points are upserted in one call that sits outside any `try/except`, so an
upsert failure (`upsertFail = some e`) propagates to the caller; when no
points were produced nothing is upserted.  The function's value is the
resulting collection (or the propagated upsert error) and the printed
error lines; the Python function itself returns `None`. -/
def addGamesRun (encode : String → Except String (List ℚ))
    (upsertFail : Option String) (store : List GamePoint)
    (games : List GameRow) : Except String (List GamePoint) × List String :=
  let built := buildPoints encode games
  if built.1 = [] then (.ok store, built.2)
  else
    match upsertFail with
    | some e => (.error e, built.2)
    | none => (.ok (built.1.foldl upsertPoint store), built.2)

/-- The distance metric of a collection's configuration. -/
inductive VecDistance where
  | cosine
  | euclid
deriving DecidableEq, Repr

/-- Configuration of a collection (`VectorParams`): vector size and
distance. -/
structure VecCfg where
  size : Nat
  distance : VecDistance
deriving DecidableEq, Repr

/-- `create_collection`: list the existing collections; if one with the
configured name exists, return without touching anything; otherwise check
the embedding dimension (`if not embedding_dim: raise ValueError`, which
fires both on `None` and on `0`) and create the collection with that
vector size and cosine distance. -/
def createCollection (embedding_dim : Option Nat)
    (collections : List (String × VecCfg)) (name : String) :
    Except String (List (String × VecCfg)) :=
  if (collections.map Prod.fst).contains name then .ok collections
  else
    match embedding_dim with
    | none => .error "Embedding dimension is not set."
    | some d =>
      if d = 0 then .error "Embedding dimension is not set."
      else .ok (collections ++ [(name, ⟨d, .cosine⟩)])

/-! ### Similarity search (`search_games`) -/

/-- Insertion of a scored point into a list sorted by descending score. -/
def insertByScoreDesc (x : GamePoint × ℚ) :
    List (GamePoint × ℚ) → List (GamePoint × ℚ)
  | [] => [x]
  | y :: ys => if y.2 < x.2 then x :: y :: ys else y :: insertByScoreDesc x ys

/-- Sort scored points by descending score. -/
def sortByScoreDesc (l : List (GamePoint × ℚ)) : List (GamePoint × ℚ) :=
  l.foldr insertByScoreDesc []

/-- Model of the `qdrant_client` `search` call: score every stored point
against the query vector with the collection's metric, keep the hits with
score at least `score_threshold` ordered by descending score, and return
the first `limit` of them.  The metric itself (cosine similarity of the
stored vectors) is the abstract parameter `sim`. -/
def qdrantSearch (sim : List ℚ → List ℚ → ℚ) (store : List GamePoint)
    (queryVector : List ℚ) (limit : Nat) (score_threshold : ℚ) :
    List (GamePoint × ℚ) :=
  ((sortByScoreDesc (store.map (fun p => (p, sim queryVector p.vector)))).filter
    (fun h => score_threshold ≤ h.2)).take limit

/-- A search hit as returned by `search_games`: the stored payload with
the hit's score attached as `similarity_score`. -/
structure SearchHit where
  payload : GamePayload
  similarity_score : ℚ
deriving DecidableEq, Repr

/-- `search_games`: embed the query, run the Qdrant search, and turn every
hit with a truthy payload into a result dictionary carrying the payload
plus `similarity_score`; hits without a payload are skipped. -/
def searchGames (encode : String → List ℚ) (sim : List ℚ → List ℚ → ℚ)
    (store : List GamePoint) (query : String) (limit : Nat)
    (score_threshold : ℚ) : List SearchHit :=
  (qdrantSearch sim store (encode query) limit score_threshold).filterMap
    (fun h => h.1.payload.map (fun pl => ⟨pl, h.2⟩))

/-! ### Recommendation engine (`recommendation_engine.py`,
`GameRecommendationEngine`)

The LLM is an explicit fallible parameter `llm` mapping a prompt to the
model's reply; a raised transport error is an `Except.error`.  The
compiled LangGraph runs `enhance_query`, then `search_games`, then
branches on emptiness of the search results to `format_results` or
`no_results`; exceptions raised inside a node propagate out of
`graph.invoke` unchanged. -/

/-- The query-enhancement prompt: `query_enhancement_template.format`
substitutes the user query into the fixed template. -/
def queryEnhancementPrompt (user_query : String) : String :=
  "\n            You are an AI assistant helping users find mobile games based on their descriptions.\n            Convert the user's query into a search query that will help find relevant games.\n            Extract key elements like visual style, gameplay mechanics, mood, and theme.\n            Do not add any greeting, notes etc, finish after one line.\n            \n            Example:\n            User query: \"show me some cool games about ghosts, haunted houses and stuff!\"\n            \n            Search query: \"ghost games, dark and eerie aesthetic, horror, mystery, paranormal investigations, supernatural abilities, exploration of haunted locations\"\n            \n            User query: "
  ++ user_query ++
  "\n            \n            Search query:\n            "

/-- The result-formatting prompt: `result_formatting_template.format`
substitutes the user query and the rendered search results into the fixed
template. -/
def resultFormattingPrompt (user_query search_results : String) : String :=
  "\n            You are an AI assistant helping users find mobile games based on their descriptions.\n            The user is looking for: "
  ++ user_query ++
  "\n            \n            Based on this query, here are the search results:\n            "
  ++ search_results ++
  "\n            \n            Analyze these results and provide a helpful recommendation to the user.\n            For each recommended game, explain why it matches what they're looking for.\n            Focus particularly on how the game's visuals and gameplay relate to their query.\n            If the results don't seem to match the query well, please acknowledge that and suggest \n            refining the search.\n            \n            Your game recommendations:\n            "

/-- Python's `f"{x:.2f}"` on a score: two decimal digits, rounding
`100 * x` to the nearest integer (computed on the exact rational as
`⌊(200 num + den) / (2 den)⌋`).  Exact halves of a hundredth are rounded
up here where CPython's float formatting rounds the binary value to even;
no claim depends on that tie case. -/
def fmt2 (x : ℚ) : String :=
  let n : ℤ := Int.fdiv (200 * x.num + (x.den : ℤ)) (2 * (x.den : ℤ))
  let a := n.natAbs
  (if n < 0 then "-" else "") ++ toString (a / 100) ++ "." ++
    (if a % 100 < 10 then "0" else "") ++ toString (a % 100)

/-- The lines `format_results` renders for the `i`-th hit: the markdown
store link with the score, the category, up to the first two screenshot
captions, and the description truncated to 200 characters. -/
def hitText (i : Nat) (r : SearchHit) : String :=
  toString i ++ ". [" ++ r.payload.app_name ++
    "](https://play.google.com/store/apps/details?id=" ++ r.payload.app_id ++
    ") (Score: " ++ fmt2 r.similarity_score ++ ")\n" ++
  "   Category: " ++ r.payload.app_category ++ "\n" ++
  (if r.payload.screenshot_captions ≠ [] then
    "   Screenshots show:\n" ++
      String.join ((r.payload.screenshot_captions.take 2).map
        (fun c => "     - " ++ c ++ "\n"))
   else "") ++
  (if strTake r.payload.app_description 200 ≠ "" then
    "   Description: " ++ strTake r.payload.app_description 200 ++ "...\n\n"
   else "")

/-- `results_text` accumulated by `format_results` over the hits,
enumerated from 1. -/
def resultsText (hits : List SearchHit) : String :=
  String.join ((hits.enumFrom 1).map (fun p => hitText p.1 p.2))

/-- The four-field dictionary `recommend_games` returns. -/
structure RecommendResult where
  user_query : String
  enhanced_query : String
  recommendations : List SearchHit
  recommendation_text : String
deriving DecidableEq, Repr

/-- `recommend_games`: run the compiled graph on the initial state.
`enhance_query` sends the enhancement prompt to the LLM and cleans the
reply; `search_games` searches the collection with the cleaned query,
`limit=5` and `score_threshold=0.6` (written as the exact rational
`mkRat 3 5`); when hits exist, `format_results`
sends the formatting prompt to the LLM, otherwise `no_results` sets the
fixed text "No results found" without any LLM call.  An LLM error
propagates unchanged.  The second component lists the prompts sent to the
LLM, in order. -/
def recommendGames (llm : String → Except String String)
    (encode : String → List ℚ) (sim : List ℚ → List ℚ → ℚ)
    (store : List GamePoint) (user_query : String) :
    Except String RecommendResult × List String :=
  let p1 := queryEnhancementPrompt user_query
  match llm p1 with
  | .error e => (.error e, [p1])
  | .ok raw =>
    let enhanced := cleanEnhancedQuery raw
    let hits := searchGames encode sim store enhanced 5 (mkRat 3 5)
    if hits.length > 0 then
      let p2 := resultFormattingPrompt user_query (resultsText hits)
      match llm p2 with
      | .error e => (.error e, [p1, p2])
      | .ok txt => (.ok ⟨user_query, enhanced, hits, txt⟩, [p1, p2])
    else
      (.ok ⟨user_query, enhanced, hits, "No results found"⟩, [p1])

/-! ### Helper definitions for the statements below -/

/-- Whether the input begins with the literal characters of "Search" (the
mandatory literal of the label pattern). -/
def startsWithSearch (cs : List Char) : Bool :=
  (stripLit "Search".toList cs).isSome

/-- Whether any suffix of the input begins with the literal "Search". -/
def hasSearch : List Char → Bool
  | [] => false
  | c :: rest => startsWithSearch (c :: rest) || hasSearch rest

/-- The number of identifiers of `l` that are neither in `seen` nor
duplicates of an earlier identifier of `l`: how many fresh points a batch
upsert appends. -/
def countNew (seen : List String) : List String → Nat
  | [] => 0
  | i :: is =>
    if i ∈ seen then countNew seen is else countNew (i :: seen) is + 1

/-- A concrete sample record (the spec's end-to-end example game). -/
def rowG1 : GameRow :=
  { app_id := "g1"
    app_name := "Forest Quest"
    app_category := "GAME_ADVENTURE"
    app_description := "Explore a colorful forest..."
    rating := some (mkRat 9 2)
    screenshot_captions := ["a character exploring a colorful forest"]
    app_icon := none
    app_page_link := none }

/-- A second concrete sample record. -/
def rowG2 : GameRow :=
  { app_id := "g2"
    app_name := "Puzzle Pop"
    app_category := "GAME_PUZZLE"
    app_description := "Pop colorful bubbles."
    rating := some 4
    screenshot_captions := []
    app_icon := none
    app_page_link := none }

/-- A concrete indexed point carrying `rowG1`'s payload. -/
def pointG1 : GamePoint := ⟨"g1", [], some (buildPayload rowG1)⟩

/-- An LLM stub that answers the enhancement prompt for the query "q" and
fails on every other prompt. -/
def llmFormatErr : String → Except String String :=
  fun p => if p = queryEnhancementPrompt "q" then .ok "raw" else .error "boom"

/-! ### Search result properties -/

theorem mem_insertByScoreDesc (x : GamePoint × ℚ) :
    ∀ (l : List (GamePoint × ℚ)) (z : GamePoint × ℚ),
      z ∈ insertByScoreDesc x l → z = x ∨ z ∈ l := by
  intro l
  induction l with
  | nil =>
    intro z h
    rw [insertByScoreDesc, List.mem_singleton] at h
    exact Or.inl h
  | cons y ys ih =>
    intro z h
    rw [insertByScoreDesc] at h
    by_cases hc : y.2 < x.2
    · rw [if_pos hc] at h
      simp only [List.mem_cons] at h ⊢
      exact h
    · rw [if_neg hc] at h
      simp only [List.mem_cons] at h ⊢
      rcases h with h | h
      · exact Or.inr (Or.inl h)
      · rcases ih z h with h' | h'
        · exact Or.inl h'
        · exact Or.inr (Or.inr h')

theorem pairwise_insertByScoreDesc (x : GamePoint × ℚ) :
    ∀ (l : List (GamePoint × ℚ)),
      List.Pairwise (fun a b => b.2 ≤ a.2) l →
      List.Pairwise (fun a b => b.2 ≤ a.2) (insertByScoreDesc x l) := by
  intro l
  induction l with
  | nil => intro _; exact List.pairwise_singleton _ _
  | cons y ys ih =>
    intro hp
    rw [insertByScoreDesc]
    rcases List.pairwise_cons.mp hp with ⟨hy, hys⟩
    by_cases hc : y.2 < x.2
    · rw [if_pos hc]
      refine List.pairwise_cons.mpr ⟨?_, hp⟩
      intro z hz
      rcases List.mem_cons.mp hz with h | h
      · exact h ▸ le_of_lt hc
      · exact le_trans (hy z h) (le_of_lt hc)
    · rw [if_neg hc]
      refine List.pairwise_cons.mpr ⟨?_, ih hys⟩
      intro z hz
      rcases mem_insertByScoreDesc x ys z hz with h | h
      · exact h ▸ not_lt.mp hc
      · exact hy z h

theorem sortByScoreDesc_pairwise (l : List (GamePoint × ℚ)) :
    List.Pairwise (fun a b => b.2 ≤ a.2) (sortByScoreDesc l) := by
  induction l with
  | nil => exact List.Pairwise.nil
  | cons x xs ih => exact pairwise_insertByScoreDesc x _ ih

/-- The combined contract of a `search_games` call: no more results than
`limit`, every score at least `score_threshold`, scores non-increasing. -/
theorem searchGames_props (encode : String → List ℚ)
    (sim : List ℚ → List ℚ → ℚ) (store : List GamePoint) (q : String)
    (L : Nat) (T : ℚ) :
    (searchGames encode sim store q L T).length ≤ L ∧
    (∀ h ∈ searchGames encode sim store q L T, T ≤ h.similarity_score) ∧
    List.Pairwise (fun a b => b.similarity_score ≤ a.similarity_score)
      (searchGames encode sim store q L T) := by
  refine ⟨?_, ?_, ?_⟩
  · exact le_trans (List.length_filterMap_le _ _) (List.length_take_le _ _)
  · intro h hh
    rw [searchGames, List.mem_filterMap] at hh
    obtain ⟨a, ha, hfa⟩ := hh
    have hmem : a ∈ (sortByScoreDesc
        (store.map (fun p => (p, sim (encode q) p.vector)))).filter
        (fun h => decide (T ≤ h.2)) := List.mem_of_mem_take ha
    have hT : T ≤ a.2 := by
      simpa using (List.mem_filter.mp hmem).2
    cases hpl : a.1.payload with
    | none => rw [hpl] at hfa; exact absurd hfa (by simp)
    | some pl =>
      rw [hpl] at hfa
      have hba : (⟨pl, a.2⟩ : SearchHit) = h := by
        simpa using hfa
      rw [← hba]
      exact hT
  · rw [searchGames, List.pairwise_filterMap]
    have hs := sortByScoreDesc_pairwise
      (store.map (fun p => (p, sim (encode q) p.vector)))
    have hf := hs.filter (fun h => decide (T ≤ h.2))
    have ht := List.Pairwise.sublist (List.take_sublist L _) hf
    refine ht.imp ?_
    intro a a' hr b hb b' hb'
    cases hpl : a.1.payload with
    | none => rw [hpl] at hb; exact absurd hb (by simp)
    | some pl =>
      cases hpl' : a'.1.payload with
      | none => rw [hpl'] at hb'; exact absurd hb' (by simp)
      | some pl' =>
        rw [hpl] at hb
        rw [hpl'] at hb'
        have hb2 : (⟨pl, a.2⟩ : SearchHit) = b := by simpa using hb
        have hb2' : (⟨pl', a'.2⟩ : SearchHit) = b' := by simpa using hb'
        rw [← hb2, ← hb2']
        exact hr

/-- Claim C1: every `search(q, limit=L, score_threshold=T)` call returns at
most `L` results, each with `similarity_score` at least `T`, sorted by
non-increasing `similarity_score`. -/
theorem search_games_limit_threshold_sorted (encode : String → List ℚ)
    (sim : List ℚ → List ℚ → ℚ) (store : List GamePoint) (q : String)
    (L : Nat) (T : ℚ) :
    (searchGames encode sim store q L T).length ≤ L ∧
    (∀ h ∈ searchGames encode sim store q L T, T ≤ h.similarity_score) ∧
    List.Pairwise (fun a b => b.similarity_score ≤ a.similarity_score)
      (searchGames encode sim store q L T) :=
  searchGames_props encode sim store q L T

/-- The hard-coded threshold of the search stage, written in the model as
the exact rational `mkRat 3 5`, is the literal `0.6`. -/
theorem ratSixTenths_eq : (0.6 : ℚ) = mkRat 3 5 := by
  norm_num [Rat.mkRat_eq_div]

/-- Claim C10: `recommend_games` invokes the search stage with the fixed
arguments `limit=5` and `score_threshold=0.6`, so a successful result has
at most 5 recommendations, each with `similarity_score` at least 0.6. -/
theorem recommend_games_fixed_cutoff (llm : String → Except String String)
    (encode : String → List ℚ) (sim : List ℚ → List ℚ → ℚ)
    (store : List GamePoint) (q : String) (r : RecommendResult)
    (tr : List String)
    (hok : recommendGames llm encode sim store q = (.ok r, tr)) :
    r.recommendations.length ≤ 5 ∧
    ∀ h ∈ r.recommendations, (0.6 : ℚ) ≤ h.similarity_score := by
  cases hllm : llm (queryEnhancementPrompt q) with
  | error e =>
    simp [recommendGames, hllm] at hok
  | ok raw =>
    simp only [recommendGames, hllm] at hok
    by_cases hlen :
        (searchGames encode sim store (cleanEnhancedQuery raw) 5 (mkRat 3 5)).length > 0
    · rw [if_pos hlen] at hok
      cases hllm2 : llm (resultFormattingPrompt q (resultsText
          (searchGames encode sim store (cleanEnhancedQuery raw) 5 (mkRat 3 5)))) with
      | error e =>
        rw [hllm2] at hok
        simp at hok
      | ok txt =>
        rw [hllm2] at hok
        have h1 : Except.ok (⟨q, cleanEnhancedQuery raw,
            searchGames encode sim store (cleanEnhancedQuery raw) 5 (mkRat 3 5), txt⟩ :
              RecommendResult) = Except.ok r := congrArg Prod.fst hok
        have hr := Except.ok.inj h1
        obtain ⟨hl, hm, _⟩ :=
          searchGames_props encode sim store (cleanEnhancedQuery raw) 5 (mkRat 3 5)
        rw [← hr, ratSixTenths_eq]
        exact ⟨hl, hm⟩
    · rw [if_neg hlen] at hok
      have h1 : Except.ok (⟨q, cleanEnhancedQuery raw,
          searchGames encode sim store (cleanEnhancedQuery raw) 5 (mkRat 3 5),
          "No results found"⟩ : RecommendResult) = Except.ok r :=
        congrArg Prod.fst hok
      have hr := Except.ok.inj h1
      obtain ⟨hl, hm, _⟩ :=
        searchGames_props encode sim store (cleanEnhancedQuery raw) 5 (mkRat 3 5)
      rw [← hr, ratSixTenths_eq]
      exact ⟨hl, hm⟩

/-- Witness for C10 at a concrete input: a constant LLM and an empty
collection. -/
theorem recommend_games_fixed_cutoff_witness :
    (⟨"anything", "x", [], "No results found"⟩ :
      RecommendResult).recommendations.length ≤ 5 ∧
    ∀ h ∈ (⟨"anything", "x", [], "No results found"⟩ :
      RecommendResult).recommendations, (0.6 : ℚ) ≤ h.similarity_score :=
  recommend_games_fixed_cutoff (fun _ => .ok "x") (fun _ => [])
    (fun _ _ => 0) [] "anything" ⟨"anything", "x", [], "No results found"⟩
    [queryEnhancementPrompt "anything"] rfl

/-! ### Collection creation -/

/-- Claim C7: `create_collection` is idempotent — an existing collection
with the configured name is returned untouched (never destructively
recreated); otherwise the collection is created with vector size equal to
the embedding model's dimension and cosine distance. -/
theorem create_collection_idempotent (dim : Option Nat)
    (cols : List (String × VecCfg)) (name : String) :
    ((cols.map Prod.fst).contains name = true →
      createCollection dim cols name = .ok cols) ∧
    (∀ d : Nat, (cols.map Prod.fst).contains name = false → dim = some d →
      d ≠ 0 →
      createCollection dim cols name =
        .ok (cols ++ [(name, ⟨d, .cosine⟩)])) := by
  constructor
  · intro h
    simp only [createCollection]
    rw [if_pos h]
  · intro d h hd hnz
    simp only [createCollection]
    rw [if_neg (by rw [h]; exact Bool.false_ne_true), hd]
    simp [hnz]

/-- Witness for C7 at concrete inputs: an existing name is returned
unchanged; a fresh name is created with the model's dimension and cosine
distance. -/
theorem create_collection_idempotent_witness :
    createCollection (some 384)
        [("game_recommendations", ⟨384, VecDistance.cosine⟩)]
        "game_recommendations" =
      .ok [("game_recommendations", ⟨384, VecDistance.cosine⟩)] ∧
    createCollection (some 384) [] "game_recommendations" =
      .ok [("game_recommendations", ⟨384, VecDistance.cosine⟩)] :=
  ⟨(create_collection_idempotent (some 384)
      [("game_recommendations", ⟨384, VecDistance.cosine⟩)]
      "game_recommendations").1 (by decide),
   by
    have h := (create_collection_idempotent (some 384) []
      "game_recommendations").2 384 (by decide) rfl (by decide)
    simpa using h⟩

/-! ### Embedding text and payload construction -/

theorem joinSpace_cons (a : String) (t : List String) (h : t ≠ []) :
    joinSpace (a :: t) = a ++ " " ++ joinSpace t := by
  cases t with
  | nil => exact absurd rfl h
  | cons b bs => rfl

theorem joinSpace_join_right (xs ys : List String) (hys : ys ≠ []) :
    joinSpace (xs ++ [joinSpace ys]) = joinSpace (xs ++ ys) := by
  induction xs with
  | nil =>
    cases ys with
    | nil => exact absurd rfl hys
    | cons b bs => rfl
  | cons a xs ih =>
    have h1 : xs ++ [joinSpace ys] ≠ [] := by simp
    have h2 : xs ++ ys ≠ [] := by
      intro hc
      exact hys (List.append_eq_nil.mp hc).2
    calc joinSpace ((a :: xs) ++ [joinSpace ys])
        = a ++ " " ++ joinSpace (xs ++ [joinSpace ys]) := by
          rw [List.cons_append, joinSpace_cons a _ h1]
      _ = a ++ " " ++ joinSpace (xs ++ ys) := by rw [ih]
      _ = joinSpace ((a :: xs) ++ ys) := by
          rw [List.cons_append, joinSpace_cons a _ h2]

/-- Claim C8: the embedded text concatenates exactly the present fields in
the fixed order title, category, description, then one entry per
screenshot caption prefixed "Screenshot shows:", and the stored payload
carries the seven metadata fields with the description truncated to 1000
characters. -/
theorem embedding_text_and_payload (g : GameRow) :
    gameEmbeddingText g = specEmbeddingText g ∧
    buildPayload g =
      { app_id := g.app_id
        app_name := g.app_name
        app_category := g.app_category
        app_description := strTake g.app_description 1000
        rating := g.rating
        screenshot_captions := g.screenshot_captions
        app_icon := g.app_icon
        app_page_link := g.app_page_link } := by
  constructor
  · by_cases hc : g.screenshot_captions = []
    · rw [gameEmbeddingText, specEmbeddingText]
      simp [hc]
    · have hys : g.screenshot_captions.map
          (fun c => "Screenshot shows: " ++ c) ≠ [] := by
        simpa using hc
      rw [gameEmbeddingText, specEmbeddingText, if_pos hc]
      exact joinSpace_join_right _ _ hys
  · rfl

/-! ### Cleanup: the claimed examples and idempotence -/

/-- Counterexample to claim C2 as stated: the label match is
case-sensitive (`re.IGNORECASE` is not passed), so the string
'**Search Query:** bar' (capital Q) is not cleaned to 'bar'. -/
theorem cleanup_case_sensitive_cex :
    cleanEnhancedQuery "**Search Query:** bar" ≠ "bar" := by decide

/-- Claim C2 (amended): cleanup strips a leading label matched
case-sensitively — optional quote, optional whitespace, optional bold
markup, the literals "Search" and lowercase "query", optional bold markup,
optional quote, a colon, trailing whitespace.  '"Search query: foo"' maps
to 'foo'; '**Search Query:** bar' (capital Q) is left unchanged; bold
markup after the colon survives: '**Search query:** bar' maps to
'** bar'. -/
theorem cleanup_label_examples :
    cleanEnhancedQuery "\"Search query: foo\"" = "foo" ∧
    cleanEnhancedQuery "**Search Query:** bar" = "**Search Query:** bar" ∧
    cleanEnhancedQuery "**Search query:** bar" = "** bar" := by
  refine ⟨?_, ?_, ?_⟩ <;> decide

/-- Counterexample to claim C9 as stated: cleanup is not idempotent —
stripping the outer quotes of '""Search query: foo' exposes a label that
only a second application removes. -/
theorem cleanup_not_idempotent_cex :
    cleanEnhancedQuery (cleanEnhancedQuery "\"\"Search query: foo") ≠
      cleanEnhancedQuery "\"\"Search query: foo" := by decide

theorem hasSearch_of_suffix {l' l : List Char} (h : l' <:+ l)
    (hs : hasSearch l' = true) : hasSearch l = true := by
  obtain ⟨pre, rfl⟩ := h
  induction pre with
  | nil => exact hs
  | cons c cs ih => simp [hasSearch, ih]

theorem hasSearch_of_startsWith {cs : List Char}
    (h : startsWithSearch cs = true) : hasSearch cs = true := by
  cases cs with
  | nil => exact absurd h (by decide)
  | cons c rest => simp [hasSearch, h]

theorem dropOneQuote_suffix (cs : List Char) : dropOneQuote cs <:+ cs := by
  cases cs with
  | nil => exact List.suffix_refl _
  | cons c rest =>
    rw [dropOneQuote]
    by_cases h : c == '"' || c == '\''
    · rw [if_pos h]; exact List.suffix_cons c rest
    · rw [if_neg h]

theorem dropOneStar_suffix (cs : List Char) : dropOneStar cs <:+ cs := by
  cases cs with
  | nil => exact List.suffix_refl _
  | cons c rest =>
    rw [dropOneStar]
    by_cases h : c == '*'
    · rw [if_pos h]; exact List.suffix_cons c rest
    · rw [if_neg h]

theorem matchLabel_eq_none_of_no_search (cs : List Char)
    (h : hasSearch cs = false) : matchLabel cs = none := by
  have hsuf : dropOneStar (dropOneStar
      ((dropOneQuote cs).dropWhile isPyWs)) <:+ cs :=
    (dropOneStar_suffix _).trans ((dropOneStar_suffix _).trans
      ((List.dropWhile_suffix _).trans (dropOneQuote_suffix cs)))
  have hnone : stripLit "Search".toList (dropOneStar (dropOneStar
      ((dropOneQuote cs).dropWhile isPyWs))) = none := by
    cases hstrip : stripLit "Search".toList (dropOneStar (dropOneStar
        ((dropOneQuote cs).dropWhile isPyWs))) with
    | none => rfl
    | some cs4 =>
      have h1 : startsWithSearch (dropOneStar (dropOneStar
          ((dropOneQuote cs).dropWhile isPyWs))) = true := by
        rw [startsWithSearch, hstrip]; rfl
      have h2 := hasSearch_of_suffix hsuf (hasSearch_of_startsWith h1)
      exact absurd h2 (by simp [h])
  simp only [matchLabel]
  rw [hnone]

theorem subAllF_eq_self_of_no_search :
    ∀ (f : Nat) (cs : List Char) (b : Bool), hasSearch cs = false →
      subAllF f cs b = cs := by
  intro f
  induction f with
  | zero => intro cs b _; rfl
  | succ f ih =>
    intro cs b h
    cases cs with
    | nil => rfl
    | cons c rest =>
      have hrest : hasSearch rest = false := by
        rw [hasSearch] at h
        exact (Bool.or_eq_false_iff.mp h).2
      have hm : matchLabel (c :: rest) = none :=
        matchLabel_eq_none_of_no_search _ h
      cases b with
      | true => simp [subAllF, hm, ih _ _ hrest]
      | false => simp [subAllF, ih _ _ hrest]

theorem stripLeadQuote_eq_self {cs : List Char}
    (h : cs.head? ≠ some '"') : stripLeadQuote cs = cs := by
  cases cs with
  | nil => rfl
  | cons c rest =>
    have hc : ¬(c = '"') := by simpa using h
    rw [stripLeadQuote, if_neg (by simpa using hc)]

theorem stripTrailQuote_eq_self {cs : List Char}
    (h : cs.getLast? ≠ some '"') : stripTrailQuote cs = cs := by
  rw [stripTrailQuote, if_neg (by simpa using h)]

/-- Claim C9 (amended): cleanup is idempotent on every string whose
cleaned form neither begins nor ends with a double quote and does not
contain the literal "Search" — in general a second application can strip
a label or a quote that the first application exposed. -/
theorem cleanup_idempotent_on_clean (s : String)
    (hq1 : (cleanEnhancedQuery s).toList.head? ≠ some '"')
    (hq2 : (cleanEnhancedQuery s).toList.getLast? ≠ some '"')
    (hns : hasSearch (cleanEnhancedQuery s).toList = false) :
    cleanEnhancedQuery (cleanEnhancedQuery s) = cleanEnhancedQuery s := by
  generalize ht : cleanEnhancedQuery s = t at hq1 hq2 hns ⊢
  simp only [cleanEnhancedQuery]
  rw [subAllF_eq_self_of_no_search _ _ _ hns, stripLeadQuote_eq_self hq1,
    stripTrailQuote_eq_self hq2]
  cases t
  rfl

/-- Witness for the amended C9 at a concrete input: cleaning
'"Search query: foo"' yields 'foo', which a second cleaning leaves
unchanged. -/
theorem cleanup_idempotent_on_clean_witness :
    cleanEnhancedQuery (cleanEnhancedQuery "\"Search query: foo\"") =
      cleanEnhancedQuery "\"Search query: foo\"" :=
  cleanup_idempotent_on_clean "\"Search query: foo\"" (by decide) (by decide)
    (by decide)

/-! ### Batch ingestion: counting and per-record failure handling -/

theorem countNew_congr :
    ∀ (l s1 s2 : List String), (∀ x, x ∈ s1 ↔ x ∈ s2) →
      countNew s1 l = countNew s2 l := by
  intro l
  induction l with
  | nil => intro s1 s2 _; rfl
  | cons i is ih =>
    intro s1 s2 hset
    rw [countNew, countNew]
    by_cases h1 : i ∈ s1
    · rw [if_pos h1, if_pos ((hset i).mp h1)]
      exact ih s1 s2 hset
    · rw [if_neg h1, if_neg (fun hc => h1 ((hset i).mpr hc))]
      rw [ih (i :: s1) (i :: s2) (fun x => by
        rw [List.mem_cons, List.mem_cons, hset x])]

theorem countNew_eq_zero (seen : List String) :
    ∀ (l : List String), (∀ i ∈ l, i ∈ seen) → countNew seen l = 0 := by
  intro l
  induction l with
  | nil => intro _; rfl
  | cons i is ih =>
    intro h
    rw [countNew, if_pos (h i (List.mem_cons_self i is))]
    exact ih (fun j hj => h j (List.mem_cons_of_mem i hj))

theorem any_id_iff (s : List GamePoint) (p : GamePoint) :
    s.any (fun q => q.id == p.id) = true ↔ p.id ∈ s.map GamePoint.id := by
  rw [List.any_eq_true]
  constructor
  · rintro ⟨x, hx, hbe⟩
    exact List.mem_map.mpr ⟨x, hx, eq_of_beq hbe⟩
  · intro hm
    obtain ⟨x, hx, hid⟩ := List.mem_map.mp hm
    exact ⟨x, hx, by simp [hid]⟩

theorem length_upsertPoint (s : List GamePoint) (p : GamePoint) :
    (upsertPoint s p).length =
      if p.id ∈ s.map GamePoint.id then s.length else s.length + 1 := by
  rw [upsertPoint]
  by_cases h : s.any (fun q => q.id == p.id)
  · rw [if_pos h, if_pos ((any_id_iff s p).mp h)]
    exact List.length_map _ _
  · rw [if_neg h, if_neg (fun hm => h ((any_id_iff s p).mpr hm))]
    simp

theorem map_id_upsertPoint (s : List GamePoint) (p : GamePoint) :
    (upsertPoint s p).map GamePoint.id =
      if p.id ∈ s.map GamePoint.id then s.map GamePoint.id
      else s.map GamePoint.id ++ [p.id] := by
  rw [upsertPoint]
  by_cases h : s.any (fun q => q.id == p.id)
  · rw [if_pos h, if_pos ((any_id_iff s p).mp h), List.map_map]
    refine List.map_congr_left ?_
    intro q _
    by_cases hq : q.id == p.id
    · simp only [Function.comp_apply, if_pos hq]
      exact (eq_of_beq hq).symm
    · simp only [Function.comp_apply, if_neg hq]
  · rw [if_neg h, if_neg (fun hm => h ((any_id_iff s p).mpr hm))]
    simp

theorem length_foldl_upsert :
    ∀ (ps s : List GamePoint),
      (ps.foldl upsertPoint s).length =
        s.length + countNew (s.map GamePoint.id) (ps.map GamePoint.id) := by
  intro ps
  induction ps with
  | nil => intro s; rfl
  | cons p ps ih =>
    intro s
    rw [List.foldl_cons, List.map_cons, countNew, ih (upsertPoint s p),
      length_upsertPoint, map_id_upsertPoint]
    by_cases h : p.id ∈ s.map GamePoint.id
    · rw [if_pos h, if_pos h, if_pos h]
    · rw [if_neg h, if_neg h, if_neg h]
      rw [countNew_congr _ (s.map GamePoint.id ++ [p.id])
        (p.id :: s.map GamePoint.id) (fun x => by
          rw [List.mem_append, List.mem_singleton, List.mem_cons, or_comm])]
      omega

theorem mem_map_id_foldl_upsert :
    ∀ (ps s : List GamePoint) (x : String),
      x ∈ ps.map GamePoint.id ∨ x ∈ s.map GamePoint.id →
      x ∈ (ps.foldl upsertPoint s).map GamePoint.id := by
  intro ps
  induction ps with
  | nil =>
    intro s x h
    rcases h with h | h
    · exact absurd h (by simp)
    · exact h
  | cons p ps ih =>
    intro s x h
    rw [List.foldl_cons]
    apply ih
    rw [map_id_upsertPoint]
    by_cases hp : p.id ∈ s.map GamePoint.id
    · rw [if_pos hp]
      rcases h with h | h
      · rw [List.map_cons, List.mem_cons] at h
        rcases h with h | h
        · exact Or.inr (h ▸ hp)
        · exact Or.inl h
      · exact Or.inr h
    · rw [if_neg hp]
      rcases h with h | h
      · rw [List.map_cons, List.mem_cons] at h
        rcases h with h | h
        · exact Or.inr (by simp [h])
        · exact Or.inl h
      · exact Or.inr (by simp [h])

/-- Counterexample to claim C3 as stated: re-adding an already indexed
record embeds successfully but does not increase the count by the number
of successfully embedded records. -/
theorem add_games_count_cex :
    countGames (addGamesToCollection (fun _ => .ok [1])
        (addGamesToCollection (fun _ => .ok [1]) [] [rowG1]) [rowG1]) ≠
      countGames (addGamesToCollection (fun _ => .ok [1]) [] [rowG1]) +
        ((buildPoints (fun _ => .ok [1]) [rowG1]).1).length := by decide

/-- Claim C3 (amended): `add_games` then `count()` increases the count by
the number of distinct successfully-embedded `app_id`s not already in the
collection; re-running `add_games` with the identical batch leaves
`count()` unchanged (idempotent upsert keyed on `app_id`). -/
theorem add_games_count (encode : String → Except String (List ℚ))
    (store : List GamePoint) (games : List GameRow) :
    countGames (addGamesToCollection encode store games) =
      countGames store +
        countNew (store.map GamePoint.id)
          (((buildPoints encode games).1).map GamePoint.id) ∧
    countGames (addGamesToCollection encode
        (addGamesToCollection encode store games) games) =
      countGames (addGamesToCollection encode store games) := by
  constructor
  · exact length_foldl_upsert _ _
  · have hz : countNew
        ((addGamesToCollection encode store games).map GamePoint.id)
        (((buildPoints encode games).1).map GamePoint.id) = 0 :=
      countNew_eq_zero _ _ (fun i hi =>
        mem_map_id_foldl_upsert _ _ i (Or.inl hi))
    calc countGames (addGamesToCollection encode
            (addGamesToCollection encode store games) games)
        = countGames (addGamesToCollection encode store games) +
            countNew
              ((addGamesToCollection encode store games).map GamePoint.id)
              (((buildPoints encode games).1).map GamePoint.id) :=
          length_foldl_upsert _ _
      _ = countGames (addGamesToCollection encode store games) := by
          rw [hz]
          omega

theorem buildPoints_eq (encode : String → Except String (List ℚ)) :
    ∀ games : List GameRow,
      buildPoints encode games =
        (games.filterMap (fun g =>
            match encode (gameEmbeddingText g) with
            | .ok v => some ⟨g.app_id, v, some (buildPayload g)⟩
            | .error _ => none),
         games.filterMap (fun g =>
            match encode (gameEmbeddingText g) with
            | .ok _ => none
            | .error e =>
              some ("Error processing game " ++ g.app_name ++ ": " ++ e))) := by
  intro games
  induction games with
  | nil => rfl
  | cons g gs ih =>
    simp only [buildPoints, List.filterMap_cons, ih]
    cases he : encode (gameEmbeddingText g) with
    | ok v => rfl
    | error e => rfl

/-- Claim C4 (amended): every record of the batch is processed inside its
own handler — a record whose embedding fails contributes one recorded
reason and does not stop the remaining records from being processed — but
the collected points are upserted in one batch call outside any handler,
whose failure aborts the call; the operation reports no per-record
counts. -/
theorem add_games_per_record_skip (encode : String → Except String (List ℚ))
    (upsertFail : Option String) (store : List GamePoint)
    (games : List GameRow) :
    (buildPoints encode games).1 =
      games.filterMap (fun g =>
        match encode (gameEmbeddingText g) with
        | .ok v => some ⟨g.app_id, v, some (buildPayload g)⟩
        | .error _ => none) ∧
    (buildPoints encode games).2 =
      games.filterMap (fun g =>
        match encode (gameEmbeddingText g) with
        | .ok _ => none
        | .error e =>
          some ("Error processing game " ++ g.app_name ++ ": " ++ e)) ∧
    (∀ e, upsertFail = some e → (buildPoints encode games).1 ≠ [] →
      addGamesRun encode upsertFail store games =
        (.error e, (buildPoints encode games).2)) := by
  refine ⟨?_, ?_, ?_⟩
  · rw [buildPoints_eq]
  · rw [buildPoints_eq]
  · intro e hf hne
    simp only [addGamesRun]
    rw [if_neg hne, hf]

/-- Witness for the amended C4 at a concrete input: with two records that
embed successfully and a failing batch upsert, the call surfaces the
upsert error and records no skipped entries. -/
theorem add_games_per_record_skip_witness :
    addGamesRun (fun _ => Except.ok [1]) (some "connection refused") []
      [rowG1, rowG2] = (.error "connection refused", []) := by
  have h := (add_games_per_record_skip (fun _ => Except.ok [1])
    (some "connection refused") [] [rowG1, rowG2]).2.2 "connection refused"
    rfl (by decide)
  exact h.trans (by rfl)

/-- Counterexample to claim C4 as stated: a failure of the upsert is not
caught and recorded per record — the whole call aborts with the raw error
and the collection is left unreported. -/
theorem add_games_upsert_abort_cex :
    addGamesRun (fun _ => Except.ok [1]) (some "connection refused")
      [pointG1] [rowG1, rowG2] = (.error "connection refused", []) := by
  rfl

/-! ### The pipeline's terminal branches -/

/-- Claim C5: when the search stage returns zero hits, the pipeline takes
the no-results branch — the result carries the fixed text
"No results found" and an empty recommendations list, and no second
(synthesis) LLM call is made: the trace holds only the enhancement
prompt. -/
theorem recommend_no_results (llm : String → Except String String)
    (encode : String → List ℚ) (sim : List ℚ → List ℚ → ℚ)
    (store : List GamePoint) (q raw : String)
    (h1 : llm (queryEnhancementPrompt q) = .ok raw)
    (h2 : searchGames encode sim store (cleanEnhancedQuery raw) 5 (mkRat 3 5) = []) :
    recommendGames llm encode sim store q =
      (.ok ⟨q, cleanEnhancedQuery raw, [], "No results found"⟩,
        [queryEnhancementPrompt q]) := by
  simp only [recommendGames, h1]
  simp [h2]

/-- Witness for C5 at a concrete input: an empty collection and a constant
LLM. -/
theorem recommend_no_results_witness :
    recommendGames (fun _ => .ok "x") (fun _ => []) (fun _ _ => 0) []
        "anything" =
      (.ok ⟨"anything", "x", [], "No results found"⟩,
        [queryEnhancementPrompt "anything"]) :=
  recommend_no_results (fun _ => .ok "x") (fun _ => []) (fun _ _ => 0) []
    "anything" "x" rfl rfl

set_option maxRecDepth 16384 in
/-- Counterexample to claim C6 as stated: there is no wrapping into a
stage-tagged `RecommendationFailed` error — a run failing at the
enhancement stage (one prompt sent) and a run failing at the synthesis
stage (two prompts sent) surface the identical raw error value. -/
theorem llm_error_unwrapped_cex :
    (recommendGames (fun _ => Except.error "boom") (fun _ => [])
        (fun _ _ => 1) [pointG1] "q").1 = .error "boom" ∧
    (recommendGames (fun _ => Except.error "boom") (fun _ => [])
        (fun _ _ => 1) [pointG1] "q").2.length = 1 ∧
    (recommendGames llmFormatErr (fun _ => []) (fun _ _ => 1)
        [pointG1] "q").1 = .error "boom" ∧
    (recommendGames llmFormatErr (fun _ => []) (fun _ _ => 1)
        [pointG1] "q").2.length = 2 := by
  exact ⟨rfl, rfl, rfl, rfl⟩

/-- Claim C6 (amended): a failure of the enhancer or synthesizer LLM call
is fatal for the invocation and propagates to the caller as the original
error value, unchanged and without a stage tag. -/
theorem llm_failure_fatal (llm : String → Except String String)
    (encode : String → List ℚ) (sim : List ℚ → List ℚ → ℚ)
    (store : List GamePoint) (q e : String) :
    (llm (queryEnhancementPrompt q) = .error e →
      recommendGames llm encode sim store q =
        (.error e, [queryEnhancementPrompt q])) ∧
    (∀ raw, llm (queryEnhancementPrompt q) = .ok raw →
      0 < (searchGames encode sim store (cleanEnhancedQuery raw)
        5 (mkRat 3 5)).length →
      llm (resultFormattingPrompt q (resultsText (searchGames encode sim
        store (cleanEnhancedQuery raw) 5 (mkRat 3 5)))) = .error e →
      recommendGames llm encode sim store q =
        (.error e, [queryEnhancementPrompt q,
          resultFormattingPrompt q (resultsText (searchGames encode sim
            store (cleanEnhancedQuery raw) 5 (mkRat 3 5)))])) := by
  constructor
  · intro h
    simp [recommendGames, h]
  · intro raw h1 hlen h2
    simp only [recommendGames, h1]
    rw [if_pos hlen, h2]

/-- Witness for the amended C6 at a concrete input: a constant failing
LLM surfaces its error from the enhancement stage. -/
theorem llm_failure_fatal_witness :
    recommendGames (fun _ => Except.error "boom") (fun _ => [])
        (fun _ _ => 0) [] "q" =
      (.error "boom", [queryEnhancementPrompt "q"]) :=
  (llm_failure_fatal (fun _ => Except.error "boom") (fun _ => [])
    (fun _ _ => 0) [] "q" "boom").1 rfl

end GRE

